import Mathlib

/-
Verification development for the `dsbook` unsupervised-learning chapter
(`src/dsbook/unsupervised/cluster.ipynb`) and the PCA-as-autoencoder page
(`src/unnamed/part_000`).  The notebook illustrative computations are
embedded shallowly: numeric data is modelled over `ℚ`, third-party library
routines whose source is not part of the repository are taken as abstract
function parameters or modelled from the formulas the chapter itself states.
The file is organized as definitions first, then theorems.
-/

namespace DSBook

open Matrix

/-! # Definitions -/

/-! ## Gaussian-mixture posterior responsibilities

Modelled from the spec: sklearn `GaussianMixture.predict_proba` is
third-party code not in this repository; the notebook EM table
(cell `39173eec`) states the posterior responsibility it returns:
`γ_nk = P_k 𝒩(x_n|μ_k,Σ_k) / ∑_j P_j 𝒩(x_n|μ_j,Σ_j)`.
`predictProbaRow P Nd k` is that formula for one data point, where `P j`
is the mixing coefficient of component `j` and `Nd j` the value of the
component density at the point. -/

def predictProbaRow {K : ℕ} (P : Fin K → ℚ) (Nd : Fin K → ℚ) (k : Fin K) : ℚ :=
  P k * Nd k / (∑ j, P j * Nd j)

/-! ## Truncated SVD reconstruction (PCA as an autoencoder)

Modelled from the spec: the reconstruction `X ≈ U_k S_k V_k^T` of
`src/unnamed/part_000` (lines 19–25), where `U_k` and `V_k` keep the top `k`
columns of the SVD factors and `S_k` the corresponding singular values.
Keeping the full factors and zeroing the singular values past `k` yields the
same product `∑_{i<k} σ_i u_i v_i^T`, which is how it is embedded here.
The reconstruction error is the squared Frobenius norm of the difference. -/

/-- Squared Frobenius norm: the sum of the squared entries of a matrix. -/
def sqFrobenius {m n : ℕ} (A : Matrix (Fin m) (Fin n) ℚ) : ℚ :=
  ∑ i, ∑ j, (A i j) ^ 2

/-- The singular-value vector truncated to its first `k` entries. -/
def truncSingular {r : ℕ} (σ : Fin r → ℚ) (k : ℕ) : Fin r → ℚ :=
  fun i => if (i : ℕ) < k then σ i else 0

/-- The rank-`k` reconstruction `U_k S_k V_k^T`. -/
def truncRecon {m n r : ℕ} (U : Matrix (Fin m) (Fin r) ℚ) (σ : Fin r → ℚ)
    (V : Matrix (Fin n) (Fin r) ℚ) (k : ℕ) : Matrix (Fin m) (Fin n) ℚ :=
  U * Matrix.diagonal (truncSingular σ k) * Vᵀ

/-! ## The illustrated k-Means iteration (cell `2ce9cf71`)

The cell alternates an E-step `labels = pairwise_distances_argmin(X, centers)`
(inside `plot_kmeans_step`) with the manual M-step
`centers = np.array([X[labels == i].mean(0) for i in range(5)])`.
The data `X` has two columns, so a data point is a pair of rationals. -/

/-- A two-dimensional data point (a row of the notebook `X`). -/
abbrev Point := ℚ × ℚ

/-- Squared Euclidean distance between two points. -/
def sqDist (p q : Point) : ℚ := (p.1 - q.1) ^ 2 + (p.2 - q.2) ^ 2

/-- Modelled from the spec: sklearn `pairwise_distances_argmin(X, centers)`
is third-party code; it returns, for each row of `X`, the index of the
nearest row of `centers` under the (squared) Euclidean metric, taking the
first index in case of ties.  `nearestAux x cs i bi bd` scans the remaining
centers `cs` starting at index `i`, with current best index `bi` at distance
`bd`. -/
def nearestAux (x : Point) : List Point → ℕ → ℕ → ℚ → ℕ
  | [], _, bi, _ => bi
  | c :: rest, i, bi, bd =>
    if sqDist x c < bd then nearestAux x rest (i + 1) i (sqDist x c)
    else nearestAux x rest (i + 1) bi bd

/-- `pairwise_distances_argmin(X, centers)`: one nearest-center index per
data point. -/
def pairwiseDistancesArgmin (X : List Point) (centers : List Point) : List ℕ :=
  X.map fun x =>
    match centers with
    | [] => 0
    | c :: rest => nearestAux x rest 1 0 (sqDist x c)

/-- `X[labels == i]`: the data points whose label equals `i`. -/
def selectLabel (X : List Point) (labels : List ℕ) (i : ℕ) : List Point :=
  ((X.zip labels).filter fun pl => pl.2 = i).map Prod.fst

/-- `X[labels == i].mean(0)`: the column-wise arithmetic mean of a selection.
The numpy mean of an empty selection is `nan` (with a runtime warning); that
undefined case is modelled as `none`. -/
def listMean (ps : List Point) : Option Point :=
  if ps.length = 0 then none
  else some ((ps.map Prod.fst).sum / ps.length, (ps.map Prod.snd).sum / ps.length)

/-- The notebook manual M-step
`centers = np.array([X[labels == i].mean(0) for i in range(5)])`, with the
cluster count `5` generalized to `k`. -/
def kmeansMStep (X : List Point) (labels : List ℕ) (k : ℕ) : List (Option Point) :=
  (List.range k).map fun i => listMean (selectLabel X labels i)

/-! ## Syntactic form of the notebook computational steps (C3)

Each clustering / mixture-fitting / covariance-decomposition statement of
the notebook is embedded as a Python expression tree, exactly as written in
the source.  A step is a *direct library call* when it is a (chain of)
third-party calls whose arguments are plain variables, constants or
attribute accesses, with no repository-side computation in between. -/

/-- Python expressions, as far as the notebook computational statements
need: variables, integer constants, attribute access, third-party function
calls, method calls, boolean-mask selection `arr[mask == idx]`, and list
comprehensions `[body for iv in range(hi)]`. -/
inductive PyExpr where
  | var (s : String)
  | intConst (n : Int)
  | attrAccess (obj field : String)
  | libCall (fn : String) (args : List PyExpr)
  | methodCall (recv : PyExpr) (fn : String) (args : List PyExpr)
  | maskSelect (arr mask idx : String)
  | listComp (body : PyExpr) (iv : String) (hi : Nat)

/-- An argument with no computation of its own. -/
def isAtomicArg : PyExpr → Bool
  | .var _ => true
  | .intConst _ => true
  | .attrAccess _ _ => true
  | _ => false

/-- A direct third-party library call: a library call or chain of method
calls on one, with atomic arguments throughout. -/
def isDirectLibraryCall : PyExpr → Bool
  | .libCall _ args => args.all isAtomicArg
  | .methodCall recv _ args =>
      (isAtomicArg recv || isDirectLibraryCall recv) && args.all isAtomicArg
  | _ => false

/-- The shape of the notebook manual M-step: a library `np.array` call whose
argument is a repository-written list comprehension. -/
def isManualMStepShape : PyExpr → Bool
  | .libCall "np.array" [.listComp _ _ _] => true
  | _ => false

/-- One computational step of the notebook: the cell it appears in, the
statement as written, and its expression tree. -/
structure CompStep where
  cell : String
  stmt : String
  expr : PyExpr

/-- The manual M-step expression
`np.array([X[labels == i].mean(0) for i in range(5)])`. -/
def manualMStepExpr : PyExpr :=
  .libCall "np.array"
    [.listComp (.methodCall (.maskSelect "X" "labels" "i") "mean" [.intConst 0]) "i" 5]

/-- Every clustering / mixture-fitting / covariance-decomposition statement
in the notebook, as written in the source cells. -/
def computationalSteps : List CompStep :=
  [⟨"2ce9cf71", "labels = pairwise_distances_argmin(X, centers)",
     .libCall "pairwise_distances_argmin" [.var "X", .var "centers"]⟩,
   ⟨"2ce9cf71", "first M-step: centers = np.array([X[labels == i].mean(0) for i in range(5)])",
     manualMStepExpr⟩,
   ⟨"2ce9cf71", "second M-step: centers = np.array([X[labels == i].mean(0) for i in range(5)])",
     manualMStepExpr⟩,
   ⟨"2ce9cf71", "third M-step: centers = np.array([X[labels == i].mean(0) for i in range(5)])",
     manualMStepExpr⟩,
   ⟨"c6853344", "labels = KMeans(3, random_state=0).fit_predict(X)",
     .methodCall (.libCall "KMeans" [.intConst 3, .intConst 0]) "fit_predict" [.var "X"]⟩,
   ⟨"62ad9948", "labels = KMeans(2, random_state=0).fit_predict(X)",
     .methodCall (.libCall "KMeans" [.intConst 2, .intConst 0]) "fit_predict" [.var "X"]⟩,
   ⟨"c3ac760f", "labels = KMeans(3, random_state=0).fit_predict(X)",
     .methodCall (.libCall "KMeans" [.intConst 3, .intConst 0]) "fit_predict" [.var "X"]⟩,
   ⟨"6a71fecf", "labels = kmeans.fit(X).predict(X)",
     .methodCall (.methodCall (.var "kmeans") "fit" [.var "X"]) "predict" [.var "X"]⟩,
   ⟨"80f5fa89", "labels = gmm.fit(X).predict(X)",
     .methodCall (.methodCall (.var "gmm") "fit" [.var "X"]) "predict" [.var "X"]⟩,
   ⟨"bc039b2c", "probs = gmm.predict_proba(X)",
     .methodCall (.var "gmm") "predict_proba" [.var "X"]⟩,
   ⟨"48db8ef9", "U, s, Vt = np.linalg.svd(covariance)",
     .libCall "np.linalg.svd" [.var "covariance"]⟩,
   ⟨"48db8ef9", "labels = gmm.fit(X).predict(X) (inside plot_gmm)",
     .methodCall (.methodCall (.var "gmm") "fit" [.var "X"]) "predict" [.var "X"]⟩]

/-! ## Cross-cell variable use in the notebook (C5)

Each code cell of `cluster.ipynb`, in order, with the names it binds
(imports, assignments and function definitions) and the names it reads
without binding them first inside the same cell (Python builtins such as
`range` and `len` are not variables and are excluded). -/

/-- A code cell: its identifier, the names it binds, and the names it reads
from the enclosing notebook environment. -/
structure NotebookCell where
  ident : String
  defines : List String
  freeReads : List String

/-- The code cells of `cluster.ipynb`, in notebook order. -/
def notebookCells : List NotebookCell :=
  [⟨"2ce9cf71",
    ["np", "pairwise_distances_argmin", "make_blobs", "sns", "plt",
     "X", "y_true", "plot_kmeans_step", "rng", "i", "centers", "labels"],
    []⟩,
   ⟨"c6853344", ["KMeans", "labels"], ["X", "plt"]⟩,
   ⟨"62ad9948", ["make_moons", "X", "y", "labels"], ["KMeans", "plt"]⟩,
   ⟨"c3ac760f",
    ["n_samples", "centers", "cluster_std", "X", "y", "labels", "markers"],
    ["make_blobs", "KMeans", "plt"]⟩,
   ⟨"332af971", ["make_blobs", "plt", "X", "y_true"], []⟩,
   ⟨"6a71fecf", ["KMeans", "kmeans", "labels"], ["X", "plt"]⟩,
   ⟨"80f5fa89", ["GaussianMixture", "gmm", "labels"], ["X", "plt"]⟩,
   ⟨"bc039b2c", ["probs", "size"], ["gmm", "labels", "X", "plt"]⟩,
   ⟨"48db8ef9", ["Ellipse", "np", "draw_ellipse", "plot_gmm", "gmm"],
    ["plt", "GaussianMixture", "X"]⟩]

/-- A cell is self-contained when it reads nothing from the notebook
environment. -/
def cellSelfContained (c : NotebookCell) : Bool := c.freeReads.isEmpty

/-- Every free read of every cell resolves to a name bound by some earlier
cell (scanning the cells in order, `env` accumulates the bound names). -/
def readsResolvedEarlier : List NotebookCell → List String → Bool
  | [], _ => true
  | c :: rest, env =>
    (c.freeReads.all fun v => env.contains v) && readsResolvedEarlier rest (env ++ c.defines)

/-! ## Straight-line execution of a cell with fallible library calls (C6)

The notebook contains no `try`/`except` anywhere: a cell is a straight-line
sequence of statements, each of which either succeeds or raises a library
error, and there is no catching construct in the embedded statement form.
A cell run is a fold over the per-statement outcomes: once a statement
errors, every later statement is skipped and the error is returned as is. -/

/-- An error raised by a third-party library call. -/
inductive LibError where
  | plotError
  | valueError
deriving DecidableEq

/-- One execution step: a prior error propagates unchanged (there is no
handler in the notebook); otherwise the next statement outcome is taken. -/
def stepExcept (acc r : Except LibError Unit) : Except LibError Unit :=
  match acc with
  | .error e => .error e
  | .ok _ => r

/-- Run a cell given the outcome of each of its statements, in order. -/
def runCell (outcomes : List (Except LibError Unit)) : Except LibError Unit :=
  outcomes.foldl stepExcept (.ok ())

/-- The statements of the k-Means illustration cell `2ce9cf71`, in order
(the import lines are omitted; `plot_kmeans_step` argument strings are
abbreviated). -/
def kmeansCellStmts : List String :=
  ["X, y_true = make_blobs(n_samples=300, centers=5, cluster_std=0.60, random_state=1)",
   "sns.scatterplot(x=X[:, 0], y=X[:, 1], s=50)",
   "plt.show()",
   "def plot_kmeans_step(X, centers, step_title)",
   "rng = np.random.RandomState(1)",
   "i = rng.permutation(X.shape[0])[:5]",
   "centers = X[i]",
   "plot_kmeans_step(X, centers, Initial Random Cluster Centers)",
   "labels = plot_kmeans_step(X, centers, First E-Step)",
   "centers = np.array([X[labels == i].mean(0) for i in range(5)])",
   "plot_kmeans_step(X, centers, First M-Step)",
   "labels = plot_kmeans_step(X, centers, Second E-Step)",
   "centers = np.array([X[labels == i].mean(0) for i in range(5)])",
   "plot_kmeans_step(X, centers, Second M-Step)",
   "labels = plot_kmeans_step(X, centers, Third E-Step)",
   "centers = np.array([X[labels == i].mean(0) for i in range(5)])",
   "plot_kmeans_step(X, centers, Third M-Step)"]

/-! ## External effects of the notebook library calls (C7)

Modelled from the spec: the third-party libraries are external code, so the
effect of each call the notebook makes is classified from its documented
behaviour — pure computation, drawing on the in-process matplotlib figure,
or displaying the figure.  `writeFile` and `mutateExternal` are the effect
classes the claim denies; no call in the notebook has them. -/

/-- Effect classification of a library call. -/
inductive EffectClass where
  | pureComputation
  | drawOnFigure
  | displayFigure
  | writeFile
  | mutateExternal

/-- A library call appearing in the notebook, with its effect class. -/
structure LibCallEffect where
  callName : String
  effect : EffectClass

/-- Every distinct library call made by the notebook code cells. -/
def notebookLibCalls : List LibCallEffect :=
  [⟨"make_blobs", .pureComputation⟩,
   ⟨"make_moons", .pureComputation⟩,
   ⟨"pairwise_distances_argmin", .pureComputation⟩,
   ⟨"np.random.RandomState", .pureComputation⟩,
   ⟨"rng.permutation", .pureComputation⟩,
   ⟨"np.array", .pureComputation⟩,
   ⟨"ndarray.mean", .pureComputation⟩,
   ⟨"ndarray.max", .pureComputation⟩,
   ⟨"KMeans", .pureComputation⟩,
   ⟨"KMeans.fit_predict", .pureComputation⟩,
   ⟨"KMeans.fit", .pureComputation⟩,
   ⟨"KMeans.predict", .pureComputation⟩,
   ⟨"GaussianMixture", .pureComputation⟩,
   ⟨"GaussianMixture.fit", .pureComputation⟩,
   ⟨"GaussianMixture.predict", .pureComputation⟩,
   ⟨"GaussianMixture.predict_proba", .pureComputation⟩,
   ⟨"np.linalg.svd", .pureComputation⟩,
   ⟨"np.degrees", .pureComputation⟩,
   ⟨"np.arctan2", .pureComputation⟩,
   ⟨"np.sqrt", .pureComputation⟩,
   ⟨"zip", .pureComputation⟩,
   ⟨"Ellipse", .pureComputation⟩,
   ⟨"sns.scatterplot", .drawOnFigure⟩,
   ⟨"plt.scatter", .drawOnFigure⟩,
   ⟨"plt.title", .drawOnFigure⟩,
   ⟨"plt.xlabel", .drawOnFigure⟩,
   ⟨"plt.ylabel", .drawOnFigure⟩,
   ⟨"plt.legend", .drawOnFigure⟩,
   ⟨"plt.grid", .drawOnFigure⟩,
   ⟨"plt.figure", .drawOnFigure⟩,
   ⟨"plt.gca", .drawOnFigure⟩,
   ⟨"ax.scatter", .drawOnFigure⟩,
   ⟨"ax.axis", .drawOnFigure⟩,
   ⟨"ax.add_patch", .drawOnFigure⟩,
   ⟨"plt.show", .displayFigure⟩]

/-- The effect stays in-process (pure or drawing) or displays a figure. -/
def effectStaysInProcessOrDisplays : EffectClass → Bool
  | .writeFile => false
  | .mutateExternal => false
  | _ => true

/-- The effect is displaying a figure. -/
def isDisplayEffect : EffectClass → Bool
  | .displayFigure => true
  | _ => false

/-! ## Randomness sources and their seeds (C8) -/

/-- A source of randomness in the notebook: the cell, the call as written,
and the fixed seed it is given (`none` would mean unseeded). -/
structure RandomSource where
  cell : String
  call : String
  seed : Option ℕ

/-- Every source of randomness in the notebook, with its seed. -/
def randomSources : List RandomSource :=
  [⟨"2ce9cf71", "make_blobs(n_samples=300, centers=5, cluster_std=0.60, random_state=1)", some 1⟩,
   ⟨"2ce9cf71", "np.random.RandomState(1)", some 1⟩,
   ⟨"c6853344", "KMeans(3, random_state=0)", some 0⟩,
   ⟨"62ad9948", "make_moons(200, noise=.05, random_state=42)", some 42⟩,
   ⟨"62ad9948", "KMeans(2, random_state=0)", some 0⟩,
   ⟨"c3ac760f",
    "make_blobs(n_samples=n_samples, centers=centers, cluster_std=cluster_std, random_state=1)",
    some 1⟩,
   ⟨"c3ac760f", "KMeans(3, random_state=0)", some 0⟩,
   ⟨"332af971", "make_blobs(n_samples=400, centers=4, cluster_std=0.60, random_state=0)", some 0⟩,
   ⟨"6a71fecf", "KMeans(4, random_state=0)", some 0⟩,
   ⟨"80f5fa89", "GaussianMixture(n_components=4, random_state=42)", some 42⟩,
   ⟨"48db8ef9", "GaussianMixture(n_components=4, covariance_type=full, random_state=42)", some 42⟩]

/-- The stream of values the notebook randomness sources draw in one
execution: a seeded source draws from its fixed seed, an unseeded one would
draw from the ambient entropy. -/
def runSeeded (draw : ℕ → ℕ) (entropy : ℕ) : List ℕ :=
  randomSources.map fun s => draw (s.seed.getD entropy)

/-! ## `draw_ellipse` (cell `48db8ef9`, C10)

The numpy routines `np.linalg.svd`, `np.sqrt`, `np.arctan2` and
`np.degrees` are third-party code, taken here as abstract function
parameters.  A covariance argument is either a `(2, 2)` matrix or (any
other shape) a pair of per-axis values, matching how
`width, height = 2 * np.sqrt(covariance)` unpacks. -/

/-- The numpy routines `draw_ellipse` calls, as abstract functions. -/
structure LibFuns where
  svd : Matrix (Fin 2) (Fin 2) ℚ
    → Matrix (Fin 2) (Fin 2) ℚ × (Fin 2 → ℚ) × Matrix (Fin 2) (Fin 2) ℚ
  sqrt : ℚ → ℚ
  arctan2 : ℚ → ℚ → ℚ
  degrees : ℚ → ℚ

/-- The covariance argument of `draw_ellipse`: shape `(2, 2)` or not. -/
inductive Covariance where
  | full (m : Matrix (Fin 2) (Fin 2) ℚ)
  | diagVec (v : Fin 2 → ℚ)

/-- One `Ellipse(position, width, height, angle)` patch added to the axes. -/
structure EllipsePatch where
  center : Point
  width : ℚ
  height : ℚ
  angle : ℚ

/-- `draw_ellipse(position, covariance)`: branch on the covariance shape to
get angle, width and height, then add one ellipse patch for each
`nsig in range(1, 4)`. -/
def drawEllipse (L : LibFuns) (position : Point) (covariance : Covariance) :
    List EllipsePatch :=
  let awh : ℚ × ℚ × ℚ :=
    match covariance with
    | .full m =>
      (L.degrees (L.arctan2 ((L.svd m).1 1 0) ((L.svd m).1 0 0)),
       2 * L.sqrt ((L.svd m).2.1 0), 2 * L.sqrt ((L.svd m).2.1 1))
    | .diagVec v => (0, 2 * L.sqrt (v 0), 2 * L.sqrt (v 1))
  (List.range' 1 3).map fun nsig =>
    ⟨position, (nsig : ℚ) * awh.2.1, (nsig : ℚ) * awh.2.2, awh.1⟩

/-! # Theorems -/

/-- C1: for every data point of the fitted GMM, the posterior membership
probabilities returned by `predict_proba` sum to 1 across the mixture
components (each row of the `probs` matrix sums to 1), provided the
mixture likelihood of the point is nonzero. -/
theorem predictProba_row_sums_to_one {K : ℕ} (P Nd : Fin K → ℚ)
    (h : (∑ j, P j * Nd j) ≠ 0) :
    (∑ k, predictProbaRow P Nd k) = 1 := by
  unfold predictProbaRow
  rw [← Finset.sum_div, div_self h]

/-- Witness for C1 at a concrete two-component mixture. -/
theorem predictProba_row_sums_to_one_witness :
    ((∑ j : Fin 2, (fun _ : Fin 2 => (1 : ℚ)/2) j * (fun _ : Fin 2 => (3 : ℚ)) j) ≠ 0) ∧
    (∑ k : Fin 2, predictProbaRow (fun _ : Fin 2 => (1 : ℚ)/2) (fun _ : Fin 2 => (3 : ℚ)) k) = 1 :=
  ⟨by norm_num [Fin.sum_univ_two],
   predictProba_row_sums_to_one _ _ (by norm_num [Fin.sum_univ_two])⟩

lemma sqFrobenius_eq_trace {m n : ℕ} (A : Matrix (Fin m) (Fin n) ℚ) :
    sqFrobenius A = Matrix.trace (Aᵀ * A) := by
  unfold sqFrobenius
  simp only [Matrix.trace, Matrix.diag, Matrix.mul_apply, Matrix.transpose_apply, sq]
  exact Finset.sum_comm

/-- The squared Frobenius norm is invariant under multiplication by matrices
with orthonormal columns on both sides. -/
lemma sqFrobenius_conj {m n r : ℕ} (U : Matrix (Fin m) (Fin r) ℚ)
    (V : Matrix (Fin n) (Fin r) ℚ) (D : Matrix (Fin r) (Fin r) ℚ)
    (hU : Uᵀ * U = 1) (hV : Vᵀ * V = 1) :
    sqFrobenius (U * D * Vᵀ) = Matrix.trace (Dᵀ * D) := by
  rw [sqFrobenius_eq_trace]
  have h1 : (U * D * Vᵀ)ᵀ * (U * D * Vᵀ) = V * ((Dᵀ * D) * Vᵀ) := by
    rw [Matrix.transpose_mul, Matrix.transpose_mul, Matrix.transpose_transpose]
    calc V * (Dᵀ * Uᵀ) * (U * D * Vᵀ)
        = V * (Dᵀ * ((Uᵀ * U) * (D * Vᵀ))) := by
          simp only [Matrix.mul_assoc]
      _ = V * ((Dᵀ * D) * Vᵀ) := by rw [hU, Matrix.one_mul, Matrix.mul_assoc]
  rw [h1, Matrix.trace_mul_comm, Matrix.mul_assoc, Matrix.trace_mul_comm (Dᵀ * D),
    hV, Matrix.one_mul]

lemma trace_diagonal_sq {r : ℕ} (d : Fin r → ℚ) :
    Matrix.trace ((Matrix.diagonal d)ᵀ * Matrix.diagonal d) = ∑ i, (d i) ^ 2 := by
  simp [Matrix.diagonal_transpose, Matrix.diagonal_mul_diagonal, Matrix.trace_diagonal, sq]

/-- C2: for every data matrix `X` with singular value decomposition
`X = U diag(σ) Vᵀ` (orthonormal columns in `U` and `V`) and every pair of
truncation ranks `k₁ ≤ k₂`, the squared Frobenius reconstruction error of the
rank-`k₂` truncated reconstruction is no larger than that of the rank-`k₁`
one: the reconstruction error decreases monotonically as `k` increases. -/
theorem truncRecon_error_antitone {m n r : ℕ}
    (X : Matrix (Fin m) (Fin n) ℚ) (U : Matrix (Fin m) (Fin r) ℚ)
    (σ : Fin r → ℚ) (V : Matrix (Fin n) (Fin r) ℚ)
    (hU : Uᵀ * U = 1) (hV : Vᵀ * V = 1)
    (hX : X = U * Matrix.diagonal σ * Vᵀ)
    (k₁ k₂ : ℕ) (hk : k₁ ≤ k₂) :
    sqFrobenius (X - truncRecon U σ V k₂) ≤ sqFrobenius (X - truncRecon U σ V k₁) := by
  have key : ∀ k, sqFrobenius (X - truncRecon U σ V k)
      = ∑ i : Fin r, (if (i : ℕ) < k then 0 else (σ i) ^ 2) := by
    intro k
    have hres : X - truncRecon U σ V k
        = U * Matrix.diagonal (fun i : Fin r => if (i : ℕ) < k then 0 else σ i) * Vᵀ := by
      rw [hX]
      unfold truncRecon
      rw [← Matrix.sub_mul, ← Matrix.mul_sub, Matrix.diagonal_sub]
      have hd : (fun i : Fin r => σ i - truncSingular σ k i)
          = fun i : Fin r => if (i : ℕ) < k then 0 else σ i := by
        funext i
        unfold truncSingular
        by_cases h : (i : ℕ) < k <;> simp [h]
      rw [hd]
    rw [hres, sqFrobenius_conj _ _ _ hU hV, trace_diagonal_sq]
    congr 1
    funext i
    by_cases h : (i : ℕ) < k <;> simp [h]
  rw [key k₁, key k₂]
  apply Finset.sum_le_sum
  intro i _
  by_cases h2 : (i : ℕ) < k₂
  · simp only [h2, if_pos]
    by_cases h1 : (i : ℕ) < k₁ <;> simp [h1, sq_nonneg]
  · have h1 : ¬ (i : ℕ) < k₁ := fun h => h2 (lt_of_lt_of_le h hk)
    simp [h1, h2]

/-- Witness for C2: a 1×1 matrix with singular value 2, ranks 0 ≤ 1. -/
theorem truncRecon_error_antitone_witness :
    ((1 : Matrix (Fin 1) (Fin 1) ℚ)ᵀ * 1 = 1) ∧
    (Matrix.diagonal (fun _ : Fin 1 => (2 : ℚ))
      = 1 * Matrix.diagonal (fun _ : Fin 1 => (2 : ℚ)) * (1 : Matrix (Fin 1) (Fin 1) ℚ)ᵀ) ∧
    (0 ≤ 1) ∧
    sqFrobenius (Matrix.diagonal (fun _ : Fin 1 => (2 : ℚ))
        - truncRecon (1 : Matrix (Fin 1) (Fin 1) ℚ) (fun _ => 2) (1 : Matrix (Fin 1) (Fin 1) ℚ) 1)
      ≤ sqFrobenius (Matrix.diagonal (fun _ : Fin 1 => (2 : ℚ))
        - truncRecon (1 : Matrix (Fin 1) (Fin 1) ℚ) (fun _ => 2) (1 : Matrix (Fin 1) (Fin 1) ℚ) 0) :=
  ⟨by simp, by simp, by norm_num,
   truncRecon_error_antitone _ _ _ _ (by simp) (by simp) (by simp) 0 1 (by norm_num)⟩

/-- Scanning spec of `nearestAux`: the result is either the incoming best
index (and the incoming best distance bounds every scanned center), or the
offset position of a scanned center whose distance bounds both the incoming
best distance and every scanned center. -/
lemma nearestAux_spec (x : Point) :
    ∀ (cs : List Point) (i bi : ℕ) (bd : ℚ),
      (nearestAux x cs i bi bd = bi ∧ ∀ p ∈ cs, bd ≤ sqDist x p)
      ∨ (∃ j, j < cs.length ∧ nearestAux x cs i bi bd = i + j
          ∧ sqDist x (cs.getD j (0, 0)) ≤ bd
          ∧ ∀ p ∈ cs, sqDist x (cs.getD j (0, 0)) ≤ sqDist x p) := by
  intro cs
  induction cs with
  | nil => intro i bi bd; exact Or.inl ⟨rfl, by simp⟩
  | cons c rest ih =>
    intro i bi bd
    by_cases hlt : sqDist x c < bd
    · have hres : nearestAux x (c :: rest) i bi bd
          = nearestAux x rest (i + 1) i (sqDist x c) := by
        simp [nearestAux, hlt]
      rcases ih (i + 1) i (sqDist x c) with ⟨heq, hall⟩ | ⟨j, hj, heq, hle, hall⟩
      · refine Or.inr ⟨0, by simp, ?_, ?_, ?_⟩
        · rw [hres, heq, Nat.add_zero]
        · simpa using le_of_lt hlt
        · intro p hp
          rcases List.mem_cons.mp hp with h | h
          · simp [h]
          · simpa using hall p h
      · refine Or.inr ⟨j + 1, by simpa using hj, ?_, ?_, ?_⟩
        · rw [hres, heq]; omega
        · calc sqDist x ((c :: rest).getD (j + 1) (0, 0))
              = sqDist x (rest.getD j (0, 0)) := by simp
            _ ≤ sqDist x c := hle
            _ ≤ bd := le_of_lt hlt
        · intro p hp
          rcases List.mem_cons.mp hp with h | h
          · have : sqDist x ((c :: rest).getD (j + 1) (0, 0)) ≤ sqDist x c := by
              simpa using hle
            simpa [h] using this
          · simpa using hall p h
    · have hres : nearestAux x (c :: rest) i bi bd
          = nearestAux x rest (i + 1) bi bd := by
        simp [nearestAux, hlt]
      rcases ih (i + 1) bi bd with ⟨heq, hall⟩ | ⟨j, hj, heq, hle, hall⟩
      · refine Or.inl ⟨by rw [hres, heq], ?_⟩
        intro p hp
        rcases List.mem_cons.mp hp with h | h
        · rw [h]; exact le_of_not_lt hlt
        · exact hall p h
      · refine Or.inr ⟨j + 1, by simpa using hj, ?_, ?_, ?_⟩
        · rw [hres, heq]; omega
        · simpa using hle
        · intro p hp
          rcases List.mem_cons.mp hp with h | h
          · have h1 : sqDist x (rest.getD j (0, 0)) ≤ bd := hle
            have h2 : bd ≤ sqDist x c := le_of_not_lt hlt
            simpa [h] using le_trans h1 h2
          · simpa using hall p h

/-- The index returned for one point is in range and indexes a nearest
center. -/
lemma nearest_index_is_argmin (x c : Point) (rest : List Point) :
    nearestAux x rest 1 0 (sqDist x c) < (c :: rest).length
    ∧ ∀ j, j < (c :: rest).length →
        sqDist x ((c :: rest).getD (nearestAux x rest 1 0 (sqDist x c)) (0, 0))
          ≤ sqDist x ((c :: rest).getD j (0, 0)) := by
  rcases nearestAux_spec x rest 1 0 (sqDist x c) with ⟨heq, hall⟩ | ⟨j, hj, heq, hle, hall⟩
  · constructor
    · simp [heq]
    · intro j hj
      rw [heq]
      match j with
      | 0 => simp
      | j + 1 =>
        have hjl : j < rest.length := by simpa using hj
        have : rest.getD j (0, 0) ∈ rest := by
          rw [List.getD_eq_getElem rest (0, 0) hjl]
          exact List.getElem_mem hjl
        simpa using hall _ this
  · constructor
    · rw [heq]; simp only [List.length_cons]; omega
    · intro j2 hj2
      rw [heq]
      have hgd : (c :: rest).getD (1 + j) (0, 0) = rest.getD j (0, 0) := by
        have : 1 + j = j + 1 := Nat.add_comm 1 j
        simp [this]
      rw [hgd]
      match j2 with
      | 0 => simpa using hle
      | j2 + 1 =>
        have hjl : j2 < rest.length := by simpa using hj2
        have : rest.getD j2 (0, 0) ∈ rest := by
          rw [List.getD_eq_getElem rest (0, 0) hjl]
          exact List.getElem_mem hjl
        simpa using hall _ this

lemma kmeansMStep_getD (X : List Point) (labels : List ℕ) (k i : ℕ) (hi : i < k) :
    (kmeansMStep X labels k).getD i none = listMean (selectLabel X labels i) := by
  unfold kmeansMStep
  rw [List.getD_eq_getElem _ _ (by simpa using hi)]
  simp

/-- C4: the illustrated k-Means iteration alternates exactly the two textbook
steps.  E-step: `pairwise_distances_argmin(X, centers)` assigns every data
point exactly one label (one label per point), which is the index of a
nearest center under squared Euclidean distance.  M-step: each recomputed
center is the arithmetic mean of the points assigned to it
(coordinatewise, mean · count = sum). -/
theorem kmeans_steps_are_textbook_steps
    (X centers : List Point) (labels : List ℕ) (k i p j : ℕ)
    (hc : centers ≠ [])
    (hl : labels = pairwiseDistancesArgmin X centers)
    (hp : p < X.length) (hj : j < centers.length)
    (hik : i < k) (m : Point)
    (hm : (kmeansMStep X labels k).getD i none = some m) :
    labels.length = X.length
    ∧ labels.getD p 0 < centers.length
    ∧ sqDist (X.getD p (0, 0)) (centers.getD (labels.getD p 0) (0, 0))
        ≤ sqDist (X.getD p (0, 0)) (centers.getD j (0, 0))
    ∧ m.1 * (selectLabel X labels i).length = ((selectLabel X labels i).map Prod.fst).sum
    ∧ m.2 * (selectLabel X labels i).length = ((selectLabel X labels i).map Prod.snd).sum := by
  obtain ⟨c, rest, rfl⟩ := List.exists_cons_of_ne_nil hc
  have hlab : labels.getD p 0
      = nearestAux (X.getD p (0, 0)) rest 1 0 (sqDist (X.getD p (0, 0)) c) := by
    rw [hl]
    unfold pairwiseDistancesArgmin
    rw [List.getD_eq_getElem _ _ (by simpa [pairwiseDistancesArgmin] using hp),
      List.getElem_map, List.getD_eq_getElem _ _ hp]
  have hargmin := nearest_index_is_argmin (X.getD p (0, 0)) c rest
  have hmean : listMean (selectLabel X labels i) = some m := by
    rw [← kmeansMStep_getD X labels k i hik]; exact hm
  have hz : (selectLabel X labels i).length ≠ 0 := by
    intro h0
    rw [listMean, if_pos h0] at hmean
    exact Option.noConfusion hmean
  have hzq : ((selectLabel X labels i).length : ℚ) ≠ 0 := Nat.cast_ne_zero.mpr hz
  rw [listMean, if_neg hz] at hmean
  have hm2 := Option.some.inj hmean
  refine ⟨?_, ?_, ?_, ?_, ?_⟩
  · rw [hl]; simp [pairwiseDistancesArgmin]
  · rw [hlab]; exact hargmin.1
  · rw [hlab]; exact hargmin.2 j hj
  · rw [← hm2]; exact div_mul_cancel₀ _ hzq
  · rw [← hm2]; exact div_mul_cancel₀ _ hzq

/-- Witness for C4: one data point at the origin, one center at the origin. -/
theorem kmeans_steps_are_textbook_steps_witness :
    (([((0 : ℚ), (0 : ℚ))] : List Point) ≠ [])
    ∧ ((pairwiseDistancesArgmin [((0 : ℚ), (0 : ℚ))] [((0 : ℚ), (0 : ℚ))]).length = 1
       ∧ (pairwiseDistancesArgmin [((0 : ℚ), (0 : ℚ))] [((0 : ℚ), (0 : ℚ))]).getD 0 0 < 1
       ∧ sqDist (([((0 : ℚ), (0 : ℚ))] : List Point).getD 0 (0, 0))
            (([((0 : ℚ), (0 : ℚ))] : List Point).getD
              ((pairwiseDistancesArgmin [((0 : ℚ), (0 : ℚ))] [((0 : ℚ), (0 : ℚ))]).getD 0 0) (0, 0))
          ≤ sqDist (([((0 : ℚ), (0 : ℚ))] : List Point).getD 0 (0, 0))
            (([((0 : ℚ), (0 : ℚ))] : List Point).getD 0 (0, 0))
       ∧ ((0 : ℚ), (0 : ℚ)).1
            * (selectLabel [((0 : ℚ), (0 : ℚ))]
                (pairwiseDistancesArgmin [((0 : ℚ), (0 : ℚ))] [((0 : ℚ), (0 : ℚ))]) 0).length
          = ((selectLabel [((0 : ℚ), (0 : ℚ))]
                (pairwiseDistancesArgmin [((0 : ℚ), (0 : ℚ))] [((0 : ℚ), (0 : ℚ))]) 0).map
              Prod.fst).sum
       ∧ ((0 : ℚ), (0 : ℚ)).2
            * (selectLabel [((0 : ℚ), (0 : ℚ))]
                (pairwiseDistancesArgmin [((0 : ℚ), (0 : ℚ))] [((0 : ℚ), (0 : ℚ))]) 0).length
          = ((selectLabel [((0 : ℚ), (0 : ℚ))]
                (pairwiseDistancesArgmin [((0 : ℚ), (0 : ℚ))] [((0 : ℚ), (0 : ℚ))]) 0).map
              Prod.snd).sum) := by
  have hm : (kmeansMStep [((0 : ℚ), (0 : ℚ))]
      (pairwiseDistancesArgmin [((0 : ℚ), (0 : ℚ))] [((0 : ℚ), (0 : ℚ))]) 1).getD 0 none
      = some ((0 : ℚ), (0 : ℚ)) := by
    norm_num [kmeansMStep, listMean, selectLabel, pairwiseDistancesArgmin, nearestAux, sqDist]
  have h := kmeans_steps_are_textbook_steps
    [((0 : ℚ), (0 : ℚ))] [((0 : ℚ), (0 : ℚ))]
    (pairwiseDistancesArgmin [((0 : ℚ), (0 : ℚ))] [((0 : ℚ), (0 : ℚ))])
    1 0 0 0 (by simp) rfl (by norm_num) (by norm_num) (by norm_num)
    ((0 : ℚ), (0 : ℚ)) hm
  exact ⟨by simp, by simpa using h⟩

/-- C9: the manual k-Means M-step
`centers = np.array([X[labels == i].mean(0) for i in range(5)])` has no
guard for an empty cluster: the `i`-th recomputed center is the
coordinatewise arithmetic mean of the points labelled `i` when that
selection is non-empty, and is undefined (the numpy `nan` mean of an empty
selection, modelled as `none`) otherwise. -/
theorem kmeans_mstep_requires_nonempty_clusters
    (X : List Point) (labels : List ℕ) (i : ℕ) (hi : i < 5) :
    (kmeansMStep X labels 5).getD i none
      = if (selectLabel X labels i).length = 0 then none
        else some (((selectLabel X labels i).map Prod.fst).sum / (selectLabel X labels i).length,
                   ((selectLabel X labels i).map Prod.snd).sum / (selectLabel X labels i).length) := by
  rw [kmeansMStep_getD X labels 5 i hi, listMean]

/-- Witness for C9: two points labelled 0; cluster 0 is non-empty
(its recomputed center is defined), cluster 1 is empty (undefined). -/
theorem kmeans_mstep_requires_nonempty_clusters_witness :
    (0 < 5) ∧ (1 < 5)
    ∧ ((kmeansMStep [((0 : ℚ), (0 : ℚ)), ((2 : ℚ), (0 : ℚ))] [0, 0] 5).getD 0 none
        = if (selectLabel [((0 : ℚ), (0 : ℚ)), ((2 : ℚ), (0 : ℚ))] [0, 0] 0).length = 0 then none
          else some
            (((selectLabel [((0 : ℚ), (0 : ℚ)), ((2 : ℚ), (0 : ℚ))] [0, 0] 0).map Prod.fst).sum
               / (selectLabel [((0 : ℚ), (0 : ℚ)), ((2 : ℚ), (0 : ℚ))] [0, 0] 0).length,
             ((selectLabel [((0 : ℚ), (0 : ℚ)), ((2 : ℚ), (0 : ℚ))] [0, 0] 0).map Prod.snd).sum
               / (selectLabel [((0 : ℚ), (0 : ℚ)), ((2 : ℚ), (0 : ℚ))] [0, 0] 0).length))
    ∧ ((kmeansMStep [((0 : ℚ), (0 : ℚ)), ((2 : ℚ), (0 : ℚ))] [0, 0] 5).getD 1 none
        = if (selectLabel [((0 : ℚ), (0 : ℚ)), ((2 : ℚ), (0 : ℚ))] [0, 0] 1).length = 0 then none
          else some
            (((selectLabel [((0 : ℚ), (0 : ℚ)), ((2 : ℚ), (0 : ℚ))] [0, 0] 1).map Prod.fst).sum
               / (selectLabel [((0 : ℚ), (0 : ℚ)), ((2 : ℚ), (0 : ℚ))] [0, 0] 1).length,
             ((selectLabel [((0 : ℚ), (0 : ℚ)), ((2 : ℚ), (0 : ℚ))] [0, 0] 1).map Prod.snd).sum
               / (selectLabel [((0 : ℚ), (0 : ℚ)), ((2 : ℚ), (0 : ℚ))] [0, 0] 1).length)) :=
  ⟨by norm_num, by norm_num,
   kmeans_mstep_requires_nonempty_clusters _ _ 0 (by norm_num),
   kmeans_mstep_requires_nonempty_clusters _ _ 1 (by norm_num)⟩

/-- C3 counterexample: not every computational step of the notebook is a
direct third-party library call — the manual k-Means M-step
`centers = np.array([X[labels == i].mean(0) for i in range(5)])`
(cell `2ce9cf71`) computes each center by a repository-written list
comprehension, so the claim fails at that step. -/
theorem not_every_step_direct_library_call :
    (computationalSteps.all fun s => isDirectLibraryCall s.expr) = false := by
  rfl

/-- C3 amended: every computational step of the notebook is a direct
third-party library call except exactly the three occurrences of the manual
k-Means M-step, which is repository code of the shape
`np.array([... for i in range(5)])` computing the center recomputation. -/
theorem steps_direct_except_manual_mstep :
    ((computationalSteps.filter fun s => ! isDirectLibraryCall s.expr).length = 3)
    ∧ (((computationalSteps.filter fun s => ! isDirectLibraryCall s.expr).all
          fun s => isManualMStepShape s.expr) = true) :=
  ⟨rfl, rfl⟩

/-- C5 counterexample: not every code cell is self-contained — the cell
`c6853344` (`KMeans(3, random_state=0).fit_predict(X)`) reads `X` and `plt`
produced by the first cell, and the cell `bc039b2c`
(`probs = gmm.predict_proba(X)`) reads `gmm`, `labels`, `X` and `plt` from
earlier cells. -/
theorem not_every_cell_self_contained :
    (notebookCells.all cellSelfContained) = false := by
  rfl

/-- C5 amended: seven of the nine code cells read names produced by earlier
cells, but every free read of every cell is resolved by a name bound in some
earlier cell (the notebook executes top to bottom). -/
theorem cell_reads_resolved_by_earlier_cells :
    ((notebookCells.filter fun c => ! cellSelfContained c).length = 7)
    ∧ (readsResolvedEarlier notebookCells [] = true) :=
  ⟨rfl, by decide⟩

lemma foldl_stepExcept_error (os : List (Except LibError Unit)) (e : LibError) :
    os.foldl stepExcept (.error e) = .error e := by
  induction os with
  | nil => rfl
  | cons r rest ih => rw [List.foldl_cons]; exact ih

/-- Running a cell whose first failing statement raises `e` returns exactly
`.error e`: the error is neither caught nor transformed. -/
lemma runCell_propagates (os : List (Except LibError Unit)) :
    ∀ (i : ℕ) (e : LibError), i < os.length → os.getD i (.ok ()) = .error e →
      (∀ j, j < i → os.getD j (.ok ()) = .ok ()) → runCell os = .error e := by
  induction os with
  | nil => intro i e hi _ _; simp at hi
  | cons r rest ih =>
    intro i e hi hf hok
    match i with
    | 0 =>
      have hr : r = .error e := by simpa using hf
      unfold runCell
      rw [List.foldl_cons, hr]
      exact foldl_stepExcept_error rest e
    | i + 1 =>
      have hr : r = .ok () := by simpa using hok 0 (Nat.succ_pos i)
      have hrec := ih i e (by simpa using hi) (by simpa using hf)
        (fun j hj => by simpa using hok (j + 1) (by omega))
      unfold runCell
      rw [List.foldl_cons, hr]
      unfold runCell at hrec
      exact hrec

/-- C6: the repository code contains no exception handling — when the
statements of the k-Means illustration cell run and one of them raises a
library error (every earlier one having succeeded), the cell evaluates to
exactly that error: it propagates uncaught, untransformed and unsuppressed. -/
theorem kmeans_cell_propagates_library_error
    (os : List (Except LibError Unit)) (i : ℕ) (e : LibError)
    (_hlen : os.length = kmeansCellStmts.length)
    (hi : i < os.length)
    (hf : os.getD i (.ok ()) = .error e)
    (hok : ∀ j, j < i → os.getD j (.ok ()) = .ok ()) :
    runCell os = .error e :=
  runCell_propagates os i e hi hf hok

/-- Witness for C6: `plt.show()` (statement 2 of the cell) raises a plotting
error and the whole cell run returns that error. -/
theorem kmeans_cell_propagates_library_error_witness :
    (((List.range kmeansCellStmts.length).map
        fun j => if j = 2 then (Except.error LibError.plotError : Except LibError Unit)
          else .ok ()).length = kmeansCellStmts.length)
    ∧ runCell ((List.range kmeansCellStmts.length).map
        fun j => if j = 2 then (Except.error LibError.plotError : Except LibError Unit)
          else .ok ()) = .error LibError.plotError := by
  refine ⟨by simp, ?_⟩
  exact kmeans_cell_propagates_library_error _ 2 LibError.plotError (by simp)
    (by norm_num [kmeansCellStmts]) (by rfl)
    (by intro j hj; interval_cases j <;> rfl)

/-- C7: the notebook maintains no persistent state — every library call it
makes either computes in-process or draws on the in-process figure, none
writes a file or mutates anything external, and the only display-effecting
call is `plt.show`. -/
theorem notebook_only_external_effect_is_display :
    ((notebookLibCalls.all fun c => effectStaysInProcessOrDisplays c.effect) = true)
    ∧ (((notebookLibCalls.filter fun c => isDisplayEffect c.effect).map
          fun c => c.callName) = ["plt.show"]) :=
  ⟨rfl, rfl⟩

/-- C8: every source of randomness in the notebook carries a fixed seed
(0, 1 or 42), so the values drawn do not depend on ambient entropy: two
executions draw identical streams, making datasets, labels, centers and
mixture parameters identical across runs. -/
theorem randomness_fixed_seeds_deterministic :
    ((randomSources.all fun s =>
        s.seed == some 0 || s.seed == some 1 || s.seed == some 42) = true)
    ∧ ∀ (draw : ℕ → ℕ) (e₁ e₂ : ℕ), runSeeded draw e₁ = runSeeded draw e₂ :=
  ⟨rfl, fun _ _ _ => rfl⟩

/-- C10: for a `(2, 2)` covariance, `draw_ellipse` takes its angle from the
SVD of the covariance (`degrees(arctan2(U[1,0], U[0,0]))`) and its width and
height as twice the square roots of the singular values; for any other
covariance shape it uses angle 0 and twice the square roots of the
covariance entries; in both cases it adds exactly three patches scaled by
1, 2 and 3. -/
theorem drawEllipse_branches_and_three_patches
    (L : LibFuns) (pos : Point) (cov : Covariance) :
    ∃ w h a, drawEllipse L pos cov
        = [⟨pos, 1 * w, 1 * h, a⟩, ⟨pos, 2 * w, 2 * h, a⟩, ⟨pos, 3 * w, 3 * h, a⟩]
      ∧ (match cov with
         | .full m =>
             a = L.degrees (L.arctan2 ((L.svd m).1 1 0) ((L.svd m).1 0 0))
             ∧ w = 2 * L.sqrt ((L.svd m).2.1 0) ∧ h = 2 * L.sqrt ((L.svd m).2.1 1)
         | .diagVec v => a = 0 ∧ w = 2 * L.sqrt (v 0) ∧ h = 2 * L.sqrt (v 1)) := by
  cases cov with
  | full m =>
    refine ⟨2 * L.sqrt ((L.svd m).2.1 0), 2 * L.sqrt ((L.svd m).2.1 1),
      L.degrees (L.arctan2 ((L.svd m).1 1 0) ((L.svd m).1 0 0)), ?_, rfl, rfl, rfl⟩
    simp [drawEllipse, List.range']
  | diagVec v =>
    refine ⟨2 * L.sqrt (v 0), 2 * L.sqrt (v 1), 0, ?_, rfl, rfl, rfl⟩
    simp [drawEllipse, List.range']

end DSBook
